import Mathlib

/-!
Verification of the pull-request history retrieval and caching subsystem
(`pull_request_fetcher.py`) and the rate governor (`githubSearch.py`).

The Python code is shallowly embedded:
* JSON payloads become the inductive type `Json` (Python dicts become
  insertion-ordered association lists, matching CPython's dict ordering).
* The HTTP layer is abstracted as a `World : String → List Page`: for the
  URL of the first request of one logical GET it yields the arrival-ordered
  sequence of pages the server would serve while the fetcher follows
  `rel="next"` links (each served page is one GET request).  The `Link`
  response header arrives pre-parsed as `(url, rel)` entries.
* Python exceptions become the `Err` error type of `Except` results:
  `raise_for_status` becomes `httpError`, the
  `'expected same object on pagination url'` exception becomes
  `identityMismatch`, `KeyError` becomes `keyError`, and dynamic-type
  failures (`TypeError`/`AttributeError`) become `typeError`.
  `serverExhausted` is a model artifact for a followed next-link with no
  further modelled page.
* File input/output is abstracted: the cache file's parsed content is a
  parameter (`Option Json`, `none` = file absent), and the single write the
  code performs is reported in the `written` field of the run outcome; the
  bytes written are `dumps` (the embedding of `json.dumps` with
  `ensure_ascii=False`) of the written array.
-/

/-- A JSON value, as produced by `response.json()` / `json.load`.
Objects keep their fields in insertion order, as CPython dicts do. -/
inductive Json where
  | null
  | bool (b : Bool)
  | num (n : Int)
  | str (s : String)
  | arr (elems : List Json)
  | obj (fields : List (String × Json))

mutual
/-- Python `==` on JSON values, structurally.  (Python compares dicts
order-insensitively; the identity fields compared in this code are content
hashes, i.e. strings, where the two notions agree.) -/
def jsonBeq : Json → Json → Bool
  | .null, .null => true
  | .bool a, .bool b => a == b
  | .num a, .num b => a == b
  | .str a, .str b => a == b
  | .arr a, .arr b => jsonListBeq a b
  | .obj a, .obj b => jsonFieldsBeq a b
  | _, _ => false

/-- Python `==` on JSON arrays, elementwise. -/
def jsonListBeq : List Json → List Json → Bool
  | [], [] => true
  | a :: as, b :: bs => jsonBeq a b && jsonListBeq as bs
  | _, _ => false

/-- Python `==` on JSON objects, bindingwise. -/
def jsonFieldsBeq : List (String × Json) → List (String × Json) → Bool
  | [], [] => true
  | (k, v) :: as, (k', v') :: bs => k == k' && jsonBeq v v' && jsonFieldsBeq as bs
  | _, _ => false
end

/-- Errors a run can raise (the embedding of the Python exceptions). -/
inductive Err where
  | httpError (status : Nat)
  | identityMismatch
  | keyError (k : String)
  | typeError
  | serverExhausted
  deriving DecidableEq

/-- One HTTP response page: status code, JSON payload, and the parsed
`Link` header (`none` when the header is absent), as `(url, rel)` pairs. -/
structure Page where
  status : Nat
  payload : Json
  link : Option (List (String × String))

/-- The server model: the arrival-ordered page sequence for the URL of the
first request of one logical GET. -/
def World : Type := String → List Page

/-- The `Context` class of `pull_request_fetcher.py`. -/
structure Context where
  repo_owner : String
  repo_name : String
  token : String

/-- Python `d[k]` read on a dict: value of the first (unique in practice)
binding of `k`. -/
def lookupField : List (String × Json) → String → Option Json
  | [], _ => none
  | (k', v) :: rest, k => if k' = k then some v else lookupField rest k

/-- Python `d[k] = v` on a dict: replace in place, else append. -/
def setField : List (String × Json) → String → Json → List (String × Json)
  | [], k, v => [(k, v)]
  | (k', v') :: rest, k, v =>
    if k' = k then (k', v) :: rest else (k', v') :: setField rest k v

/-- Python `xs += j` on a list `xs`: extending by a list concatenates, by a
dict appends its keys, by a string appends its characters; any other
right-hand side raises `TypeError`. -/
def pyListExtend (xs : List Json) : Json → Except Err (List Json)
  | Json.arr ys => .ok (xs ++ ys)
  | Json.obj fs => .ok (xs ++ fs.map (fun f => Json.str f.1))
  | Json.str s => .ok (xs ++ s.data.map (fun c => Json.str (String.singleton c)))
  | _ => .error .typeError

/-- Python `s.startswith(p)`. -/
def pyStartswith (s p : String) : Bool :=
  p.data.isPrefixOf s.data

/-- The object-mode merge of `__fetch` (lines 50–55): the accumulated value
is a dict; the page must be a dict with the same `'sha'`, and then its
`'files'` are appended onto the accumulated `'files'`; a differing `'sha'`
raises the `'expected same object on pagination url'` exception. -/
def mergeObj (fs : List (String × Json)) (payload : Json) : Except Err Json :=
  match lookupField fs "sha" with
  | none => .error (.keyError "sha")
  | some shaAcc =>
    match payload with
    | Json.obj pfs =>
      match lookupField pfs "sha" with
      | none => .error (.keyError "sha")
      | some shaPage =>
        if jsonBeq shaAcc shaPage then
          match lookupField fs "files" with
          | none => .error (.keyError "files")
          | some (Json.arr accFiles) =>
            match lookupField pfs "files" with
            | none => .error (.keyError "files")
            | some pf =>
              (pyListExtend accFiles pf).map
                (fun l => Json.obj (setField fs "files" (Json.arr l)))
          | some _ => .error .typeError
        else .error .identityMismatch
    | _ => .error .typeError

/-- One merge step of `__fetch` (lines 47–57).  The first branch is the
`responseJson == []` test (true exactly for the empty list, i.e. the
initial accumulator or an empty first page); a non-list accumulator goes
to the object merge; a non-empty list accumulator is extended. -/
def mergePage (acc payload : Json) : Except Err Json :=
  match acc with
  | Json.arr [] => .ok payload
  | Json.arr (x :: xs) => (pyListExtend (x :: xs) payload).map Json.arr
  | Json.obj fs => mergeObj fs payload
  | _ => .error .typeError

/-- The `rel="next"` extraction of `__fetch` (lines 60–69) on the parsed
`Link` header: the first entry whose relation is `next`, if any. -/
def linkNext (p : Page) : Option String :=
  match p.link with
  | none => none
  | some entries => (entries.find? (fun e => e.2 == "next")).map (fun e => e.1)

/-- The `while rel == 'next'` loop of `__fetch` (lines 40–70) over the
arrival-ordered page sequence, returning the merged value and the number
of GET requests issued. -/
def fetchPages : Json → List Page → (Except Err Json) × Nat
  | _, [] => (.error .serverExhausted, 0)
  | acc, p :: rest =>
    if 400 ≤ p.status then (.error (.httpError p.status), 1)
    else
      match mergePage acc p.payload with
      | .error e => (.error e, 1)
      | .ok acc' =>
        match linkNext p with
        | none => (.ok acc', 1)
        | some _ =>
          match fetchPages acc' rest with
          | (r, c) => (r, c + 1)

/-- The URL construction of `__fetch` (lines 26, 33–38). -/
def buildUrl (context : Context) (endpoint : String) : String :=
  let base := "https://api.github.com/repos/"
  if pyStartswith endpoint base then endpoint
  else
    let full_url := base ++ context.repo_owner ++ "/" ++ context.repo_name ++ "/" ++ endpoint
    if pyStartswith endpoint "pulls" then full_url ++ "?state=all" else full_url

/-- `__fetch(context, endpoint)`: build the request URL, then run the
pagination loop over the pages the server serves for it. -/
def __fetch (world : World) (context : Context) (endpoint : String) :
    (Except Err Json) × Nat :=
  fetchPages (Json.arr []) (world (buildUrl context endpoint))

/-- The file filter and projection of `__fetch_pr` (lines 103–110): keep
files with `changes > 0` that carry a `patch`, projecting each onto
`{FILE_NAME, FILE_PATCH}` in arrival order. -/
def filterFiles : List Json → Except Err (List Json)
  | [] => .ok []
  | f :: rest =>
    match f with
    | Json.obj ffs =>
      match lookupField ffs "changes" with
      | none => .error (.keyError "changes")
      | some (Json.num c) =>
        if 0 < c then
          match lookupField ffs "patch" with
          | none => filterFiles rest
          | some p =>
            match lookupField ffs "filename" with
            | none => .error (.keyError "filename")
            | some fn =>
              (filterFiles rest).map
                (fun l => Json.obj [("FILE_NAME", fn), ("FILE_PATCH", p)] :: l)
        else filterFiles rest
      | some _ => .error .typeError
    | _ => .error .typeError

/-- One iteration of the commit loop of `__fetch_pr` (lines 97–112):
read the commit message, fetch the commit detail at `commit['url']`,
filter its `files`, and build the `{COMMIT_MESSAGE, COMMIT_FILES}` record.
Returns the record and the number of GET requests issued. -/
def processCommit (world : World) (context : Context) (commit : Json) :
    (Except Err Json) × Nat :=
  match commit with
  | Json.obj cfs =>
    match lookupField cfs "commit" with
    | none => ((.error (.keyError "commit")), 0)
    | some (Json.obj ccfs) =>
      match lookupField ccfs "message" with
      | none => ((.error (.keyError "message")), 0)
      | some msg =>
        match lookupField cfs "url" with
        | none => ((.error (.keyError "url")), 0)
        | some (Json.str u) =>
          match __fetch world context u with
          | (.error e, c) => ((.error e), c)
          | (.ok content, c) =>
            match content with
            | Json.obj confs =>
              match lookupField confs "files" with
              | none => ((.error (.keyError "files")), c)
              | some (Json.arr fl) =>
                match filterFiles fl with
                | .error e => ((.error e), c)
                | .ok kept =>
                  ((.ok (Json.obj
                    [("COMMIT_MESSAGE", msg), ("COMMIT_FILES", Json.arr kept)])), c)
              | some _ => ((.error .typeError), c)
            | _ => ((.error .typeError), c)
        | some _ => ((.error .typeError), 0)
    | some _ => ((.error .typeError), 0)
  | _ => ((.error .typeError), 0)

/-- The commit loop of `__fetch_pr`, in arrival order, accumulating the
commit records and the GET request count. -/
def processCommits (world : World) (context : Context) :
    List Json → (Except Err (List Json)) × Nat
  | [] => (.ok [], 0)
  | c :: rest =>
    match processCommit world context c with
    | (.error e, n) => ((.error e), n)
    | (.ok cobj, n) =>
      match processCommits world context rest with
      | (.error e, m) => ((.error e), n + m)
      | (.ok objs, m) => ((.ok (cobj :: objs)), n + m)

/-- Python `for x in j`: a list yields its elements, a dict its keys, a
string its characters; other values are not iterable. -/
def pyIter : Json → Except Err (List Json)
  | Json.arr l => .ok l
  | Json.obj fs => .ok (fs.map (fun f => Json.str f.1))
  | Json.str s => .ok (s.data.map (fun c => Json.str (String.singleton c)))
  | _ => .error .typeError

/-- The assembly phase of `__fetch_pr` (lines 84–112): fetch the PR detail
at `pulls/{number}`, its commit list at `pr['commits_url']`, then each
commit's detail, building the `{PR_NUMBER, PR_TITLE, PR_BODY, COMMITS}`
record (keys in the source's insertion order).  Returns the record and the
total number of GET requests issued. -/
def assemblePr (world : World) (tok owner repo : String) (n : Int) :
    (Except Err Json) × Nat :=
  let context : Context := ⟨owner, repo, tok⟩
  match __fetch world context ("pulls/" ++ toString n) with
  | (.error e, c1) => ((.error e), c1)
  | (.ok pr, c1) =>
    match pr with
    | Json.obj prfs =>
      match lookupField prfs "number" with
      | none => ((.error (.keyError "number")), c1)
      | some num =>
        match lookupField prfs "commits_url" with
        | none => ((.error (.keyError "commits_url")), c1)
        | some (Json.str cu) =>
          match __fetch world context cu with
          | (.error e, c2) => ((.error e), c1 + c2)
          | (.ok commits, c2) =>
            match lookupField prfs "title" with
            | none => ((.error (.keyError "title")), c1 + c2)
            | some title =>
              match lookupField prfs "body" with
              | none => ((.error (.keyError "body")), c1 + c2)
              | some body =>
                match pyIter commits with
                | .error e => ((.error e), c1 + c2)
                | .ok clist =>
                  match processCommits world context clist with
                  | (.error e, c3) => ((.error e), c1 + c2 + c3)
                  | (.ok cobjs, c3) =>
                    ((.ok (Json.obj
                      [("PR_NUMBER", num), ("PR_TITLE", title),
                       ("PR_BODY", body), ("COMMITS", Json.arr cobjs)])),
                      c1 + c2 + c3)
        | some _ => ((.error .typeError), c1)
    | _ => ((.error .typeError), c1)

/-- The observable outcome of one `fetch_pr` / `__fetch_pr` run: the value
returned (or the exception raised), the number of GET requests issued, and
the array written to the cache file (`none` when no write occurred). -/
structure PrRun where
  result : Except Err Json
  requests : Nat
  written : Option (List Json)

/-- `__fetch_pr(repo_owner, repo_name, pr_number)` (lines 83–125): run the
assembly phase, then re-read the cache file, append the new record and
write the file back; the write happens only after the whole assembly
succeeded.  `cache` is the parsed content of the cache file (`none` when
the file does not exist). -/
def __fetch_pr (world : World) (tok : String) (cache : Option Json)
    (owner repo : String) (n : Int) : PrRun :=
  match assemblePr world tok owner repo n with
  | (.error e, c) => ⟨.error e, c, none⟩
  | (.ok rec, c) =>
    match cache with
    | none => ⟨.ok rec, c, some [rec]⟩
    | some (Json.arr l) => ⟨.ok rec, c, some (l ++ [rec])⟩
    | some _ => ⟨.error .typeError, c, none⟩

/-- Python truthiness of a JSON value (the `if not prs:` test). -/
def pyFalsy : Json → Bool
  | Json.null => true
  | Json.bool b => !b
  | Json.num n => n == 0
  | Json.str s => s.isEmpty
  | Json.arr l => l.isEmpty
  | Json.obj fs => fs.isEmpty

/-- Python `pr['PR_NUMBER'] == pr_number` for an `int` right-hand side. -/
def jsonEqInt (v : Json) (n : Int) : Bool :=
  match v with
  | Json.num m => m == n
  | _ => false

/-- The list comprehension of `fetch_pr` (line 77) over the cached
records: every element must be a dict carrying `'PR_NUMBER'`; those whose
number equals `pr_number` are kept in order. -/
def filterPrsList : List Json → Int → Except Err (List Json)
  | [], _ => .ok []
  | pr :: rest, n =>
    match pr with
    | Json.obj fs =>
      match lookupField fs "PR_NUMBER" with
      | none => .error (.keyError "PR_NUMBER")
      | some v =>
        match filterPrsList rest n with
        | .error e => .error e
        | .ok l => .ok (if jsonEqInt v n then pr :: l else l)
    | _ => .error .typeError

/-- The comprehension of `fetch_pr` applied to the parsed cache content
(the iteration raises `TypeError` on a non-list value). -/
def filterPrs : Json → Int → Except Err (List Json)
  | Json.arr l, n => filterPrsList l n
  | _, _ => .error .typeError

/-- `fetch_pr(repo_owner, repo_name, pr_number)` (lines 72–81): answer
from the cache when it holds a record with the requested number, otherwise
run `__fetch_pr`.  `cache` is the parsed cache file content. -/
def fetch_pr (world : World) (tok : String) (cache : Option Json)
    (owner repo : String) (n : Int) : PrRun :=
  match cache with
  | none => __fetch_pr world tok cache owner repo n
  | some prs =>
    if pyFalsy prs then __fetch_pr world tok cache owner repo n
    else
      match filterPrs prs n with
      | .error e => ⟨.error e, 0, none⟩
      | .ok [] => __fetch_pr world tok cache owner repo n
      | .ok (p :: _) => ⟨.ok p, 0, none⟩

/-- `GitHubSecurityScanner.check_rate_limit` (`githubSearch.py`,
lines 26–33), with `time.time()` passed as `now`.  Returns `.ok (some t)`
when the call sleeps for `t` seconds (so it wakes at `reset + 1`),
`.ok none` when it proceeds without blocking, and an error when
`rate_limit_reset` is still `None` while the guard is taken. -/
def check_rate_limit (rate_limit_remaining rate_limit_reset : Option Int)
    (now : Int) : Except Err (Option Int) :=
  match rate_limit_remaining with
  | none => .ok none
  | some r =>
    if r < 10 then
      match rate_limit_reset with
      | none => .error .typeError
      | some reset =>
        if reset > now then .ok (some (reset - now + 1)) else .ok none
    else .ok none

/-- One hex digit, lower case, as `json.dumps` emits in `\uXXXX` escapes. -/
def hexDigit (n : Nat) : Char :=
  if n < 10 then Char.ofNat (48 + n) else Char.ofNat (87 + n)

/-- The escaping `json.dumps` applies inside string literals with
`ensure_ascii=False`: quote, backslash and control characters only. -/
def escChar (c : Char) : String :=
  if c = '"' then "\\\""
  else if c = '\\' then "\\\\"
  else if c = '\n' then "\\n"
  else if c = '\t' then "\\t"
  else if c = '\r' then "\\r"
  else if c = Char.ofNat 8 then "\\b"
  else if c = Char.ofNat 12 then "\\f"
  else if c.toNat < 32 then
    "\\u00" ++ String.singleton (hexDigit (c.toNat / 16))
      ++ String.singleton (hexDigit (c.toNat % 16))
  else String.singleton c

/-- A `json.dumps` string literal body. -/
def escString (s : String) : String :=
  s.data.foldl (fun acc c => acc ++ escChar c) ""

mutual
/-- `json.dumps(x, ensure_ascii=False)` with the default separators
`', '` and `': '`, as used for the cache file write (line 122). -/
def dumps : Json → String
  | .null => "null"
  | .bool b => if b then "true" else "false"
  | .num n => toString n
  | .str s => "\"" ++ escString s ++ "\""
  | .arr xs => "[" ++ dumpsList xs ++ "]"
  | .obj fs => "\x7b" ++ dumpsFields fs ++ "\x7d"

/-- Array elements of `json.dumps`, comma-separated. -/
def dumpsList : List Json → String
  | [] => ""
  | [x] => dumps x
  | x :: y :: xs => dumps x ++ ", " ++ dumpsList (y :: xs)

/-- Object bindings of `json.dumps`, comma-separated. -/
def dumpsFields : List (String × Json) → String
  | [] => ""
  | [f] => "\"" ++ escString f.1 ++ "\": " ++ dumps f.2
  | f :: g :: fs =>
    "\"" ++ escString f.1 ++ "\": " ++ dumps f.2 ++ ", " ++ dumpsFields (g :: fs)
end

/-- The items of a list-typed page payload. -/
def itemsOf : Json → Option (List Json)
  | Json.arr l => some l
  | _ => none

/-- The identity field of an object-typed page payload. -/
def shaOf : Json → Option Json
  | Json.obj fs => lookupField fs "sha"
  | _ => none

/-- The embedded `files` list of an object-typed page payload. -/
def filesArrOf : Json → Option (List Json)
  | Json.obj fs =>
    match lookupField fs "files" with
    | some (Json.arr l) => some l
    | _ => none
  | _ => none

/-- Concatenation, in arrival order, of the items of list-typed pages. -/
def concatItems (pages : List Page) : List Json :=
  pages.foldr (fun p acc => (itemsOf p.payload).getD [] ++ acc) []

/-- Concatenation, in arrival order, of the `files` of object-typed pages. -/
def concatFiles (pages : List Page) : List Json :=
  pages.foldr (fun p acc => (filesArrOf p.payload).getD [] ++ acc) []

theorem itemsOf_eq_some {j : Json} {xs : List Json} :
    itemsOf j = some xs ↔ j = Json.arr xs := by
  cases j <;> simp [itemsOf]

theorem concatItems_cons (p : Page) (ps : List Page) :
    concatItems (p :: ps) = (itemsOf p.payload).getD [] ++ concatItems ps := rfl

theorem mergePage_arr (acc xs : List Json) :
    mergePage (Json.arr acc) (Json.arr xs) = .ok (Json.arr (acc ++ xs)) := by
  cases acc <;> simp [mergePage, pyListExtend, Except.map]

/-- Array-mode run of the pagination loop: starting from a list
accumulator, over success pages with list payloads chained by `next`
links up to the first page without one, the loop returns the concatenated
items having issued one request per consumed page; pages past the first
`next`-less page are never requested. -/
theorem fetchPages_arr_run :
    ∀ (front : List Page) (pterm : Page) (rest : List Page) (acc : List Json),
    (∀ p ∈ front ++ [pterm], p.status < 400) →
    (∀ p ∈ front ++ [pterm], (itemsOf p.payload).isSome) →
    (∀ p ∈ front, (linkNext p).isSome) →
    linkNext pterm = none →
    fetchPages (Json.arr acc) (front ++ pterm :: rest)
      = (.ok (Json.arr (acc ++ concatItems (front ++ [pterm]))), front.length + 1) := by
  intro front
  induction front with
  | nil =>
    intro pterm rest acc hst harr _ hterm
    obtain ⟨xs, hxs⟩ := Option.isSome_iff_exists.mp (harr pterm (by simp))
    have hpl : pterm.payload = Json.arr xs := itemsOf_eq_some.mp hxs
    have hs : ¬ (400 ≤ pterm.status) := by have := hst pterm (by simp); omega
    simp [fetchPages, hs, hpl, mergePage_arr, hterm, concatItems, itemsOf]
  | cons p front' ih =>
    intro pterm rest acc hst harr hnext hterm
    obtain ⟨xs, hxs⟩ := Option.isSome_iff_exists.mp (harr p (by simp))
    have hpl : p.payload = Json.arr xs := itemsOf_eq_some.mp hxs
    have hs : ¬ (400 ≤ p.status) := by have := hst p (by simp); omega
    obtain ⟨u, hu⟩ := Option.isSome_iff_exists.mp (hnext p (by simp))
    have ihr := ih pterm rest (acc ++ xs)
      (fun q hq => hst q (by simp at hq ⊢; tauto))
      (fun q hq => harr q (by simp at hq ⊢; tauto))
      (fun q hq => hnext q (by simp [hq]))
      hterm
    simp only [List.cons_append, fetchPages, hs, if_false, hpl, mergePage_arr,
      hu, ihr, concatItems_cons, List.length_cons]
    simp [ihr, concatItems_cons, hpl, itemsOf, List.append_assoc]

/-- C3: for every sequence of response pages, the pagination loop of the
Fetcher terminates exactly when a page's headers contain no link entry
with `rel="next"`: it consumes pages up to and including the first page
without such an entry (pages beyond it are never requested, whatever they
hold), and for N pages of which the first N−1 carry a `rel="next"` link
and the Nth does not, `__fetch` issues exactly N GET requests and then
returns. -/
theorem c3_pagination_terminates (world : World) (context : Context)
    (endpoint : String) (front : List Page) (pterm : Page) (rest : List Page)
    (hw : world (buildUrl context endpoint) = front ++ pterm :: rest)
    (hst : ∀ p ∈ front ++ [pterm], p.status < 400)
    (harr : ∀ p ∈ front ++ [pterm], (itemsOf p.payload).isSome)
    (hnext : ∀ p ∈ front, (linkNext p).isSome)
    (hterm : linkNext pterm = none) :
    ∃ j, __fetch world context endpoint = (.ok j, front.length + 1) := by
  unfold __fetch
  rw [hw]
  exact ⟨_, fetchPages_arr_run front pterm rest [] hst harr hnext hterm⟩

/-- Witness for C3: two pages, the first with a `rel="next"` link, the
second without one; `__fetch` issues exactly 2 requests. -/
theorem c3_pagination_terminates_witness :
    ∃ j, __fetch
      (fun _ => [⟨200, Json.arr [Json.num 1], some [("u2", "next")]⟩,
                 ⟨200, Json.arr [Json.num 2], none⟩])
      ⟨"o", "r", "t"⟩ "pulls"
      = (.ok j, 2) :=
  c3_pagination_terminates _ _ _
    [⟨200, Json.arr [Json.num 1], some [("u2", "next")]⟩]
    ⟨200, Json.arr [Json.num 2], none⟩ [] rfl
    (by decide) (by decide) (by decide) rfl

/-- C4: for every pagination sequence whose pages' payloads are lists,
`__fetch` returns the concatenation of every page's items in arrival
order. -/
theorem c4_list_merge_concat (world : World) (context : Context)
    (endpoint : String) (front : List Page) (pterm : Page)
    (hw : world (buildUrl context endpoint) = front ++ [pterm])
    (hst : ∀ p ∈ front ++ [pterm], p.status < 400)
    (harr : ∀ p ∈ front ++ [pterm], (itemsOf p.payload).isSome)
    (hnext : ∀ p ∈ front, (linkNext p).isSome)
    (hterm : linkNext pterm = none) :
    __fetch world context endpoint
      = (.ok (Json.arr (concatItems (front ++ [pterm]))), front.length + 1) := by
  unfold __fetch
  rw [hw]
  simpa using fetchPages_arr_run front pterm [] [] hst harr hnext hterm

/-- Witness for C4: three list pages concatenate in arrival order. -/
theorem c4_list_merge_concat_witness :
    __fetch
      (fun _ => [⟨200, Json.arr [Json.num 1, Json.num 2], some [("u2", "next")]⟩,
                 ⟨200, Json.arr [], some [("u3", "next")]⟩,
                 ⟨200, Json.arr [Json.num 3], none⟩])
      ⟨"o", "r", "t"⟩ "pulls"
      = (.ok (Json.arr [Json.num 1, Json.num 2, Json.num 3]), 3) :=
  c4_list_merge_concat _ _ _
    [⟨200, Json.arr [Json.num 1, Json.num 2], some [("u2", "next")]⟩,
     ⟨200, Json.arr [], some [("u3", "next")]⟩]
    ⟨200, Json.arr [Json.num 3], none⟩ rfl
    (by decide) (by decide) (by decide) rfl

theorem lookupField_setField_self (fs : List (String × Json)) (k : String) (v : Json) :
    lookupField (setField fs k v) k = some v := by
  induction fs with
  | nil => simp [setField, lookupField]
  | cons f rest ih =>
    by_cases h : f.1 = k <;> simp [setField, lookupField, h, ih]

theorem lookupField_setField_ne (fs : List (String × Json)) (k k' : String)
    (v : Json) (h : k ≠ k') :
    lookupField (setField fs k v) k' = lookupField fs k' := by
  induction fs with
  | nil => simp [setField, lookupField, h]
  | cons f rest ih =>
    by_cases hf : f.1 = k <;> simp [setField, lookupField, hf, h, ih]

theorem setField_setField (fs : List (String × Json)) (k : String) (v v' : Json) :
    setField (setField fs k v) k v' = setField fs k v' := by
  induction fs with
  | nil => simp [setField]
  | cons f rest ih =>
    by_cases hf : f.1 = k <;> simp [setField, hf, ih]

theorem mergeObj_same_sha (fs pfs : List (String × Json)) (s s' : Json)
    (accFiles pf : List Json)
    (hsha : lookupField fs "sha" = some s)
    (hpsha : lookupField pfs "sha" = some s')
    (hbeq : jsonBeq s s' = true)
    (hfiles : lookupField fs "files" = some (Json.arr accFiles))
    (hpfiles : lookupField pfs "files" = some (Json.arr pf)) :
    mergeObj fs (Json.obj pfs)
      = .ok (Json.obj (setField fs "files" (Json.arr (accFiles ++ pf)))) := by
  simp [mergeObj, hsha, hpsha, hbeq, hfiles, hpfiles, pyListExtend, Except.map]

theorem mergeObj_sha_mismatch (fs pfs : List (String × Json)) (s s' : Json)
    (hsha : lookupField fs "sha" = some s)
    (hpsha : lookupField pfs "sha" = some s')
    (hbeq : jsonBeq s s' = false) :
    mergeObj fs (Json.obj pfs) = .error .identityMismatch := by
  simp [mergeObj, hsha, hpsha, hbeq]

/-- A continuation page fit for the object-mode merge against first-page
identity `s`: success status, object payload whose `'sha'` compares equal
(Python `==`) to `s`, with a list-valued `'files'`. -/
def objPageOk (s : Json) (p : Page) : Bool :=
  decide (p.status < 400) &&
    (match shaOf p.payload with
     | some s' => jsonBeq s s'
     | none => false) &&
    (filesArrOf p.payload).isSome

theorem objPageOk_spec {s : Json} {p : Page} (h : objPageOk s p = true) :
    p.status < 400 ∧ ∃ pfs s' fl, p.payload = Json.obj pfs
      ∧ lookupField pfs "sha" = some s' ∧ jsonBeq s s' = true
      ∧ lookupField pfs "files" = some (Json.arr fl) := by
  simp only [objPageOk, Bool.and_eq_true, decide_eq_true_eq] at h
  obtain ⟨⟨hst, hsha⟩, hfl⟩ := h
  refine ⟨hst, ?_⟩
  cases hpl : p.payload with
  | obj pfs =>
    rw [hpl] at hsha hfl
    simp only [shaOf] at hsha
    cases hs : lookupField pfs "sha" with
    | none => rw [hs] at hsha; exact absurd hsha (by simp)
    | some s' =>
      rw [hs] at hsha
      simp only [filesArrOf] at hfl
      cases hf : lookupField pfs "files" with
      | none => rw [hf] at hfl; simp at hfl
      | some fv =>
        rw [hf] at hfl
        cases fv with
        | arr fl => exact ⟨pfs, s', fl, rfl, hs, hsha, hf⟩
        | null => simp at hfl
        | bool b => simp at hfl
        | num n => simp at hfl
        | str s2 => simp at hfl
        | obj o => simp at hfl
  | null => rw [hpl] at hsha; simp [shaOf] at hsha
  | bool b => rw [hpl] at hsha; simp [shaOf] at hsha
  | num n => rw [hpl] at hsha; simp [shaOf] at hsha
  | str s2 => rw [hpl] at hsha; simp [shaOf] at hsha
  | arr l => rw [hpl] at hsha; simp [shaOf] at hsha

/-- The `next`-link chain shape of an arrival sequence: every page but the
last carries a `rel="next"` link and the last does not. -/
def chainNexts : List Page → Bool
  | [] => false
  | [p] => (linkNext p).isNone
  | p :: q :: rest => (linkNext p).isSome && chainNexts (q :: rest)

theorem concatFiles_cons (p : Page) (ps : List Page) :
    concatFiles (p :: ps) = (filesArrOf p.payload).getD [] ++ concatFiles ps := rfl

theorem fetchPages_cons_step (acc : Json) (p : Page) (rest : List Page)
    (acc' : Json) (hs : ¬ 400 ≤ p.status)
    (hm : mergePage acc p.payload = .ok acc') (u : String)
    (hu : linkNext p = some u) :
    fetchPages acc (p :: rest)
      = ((fetchPages acc' rest).1, (fetchPages acc' rest).2 + 1) := by
  simp [fetchPages, hs, hm, hu]

/-- Object-mode run of the pagination loop: starting from an object
accumulator carrying identity `s` and a list of files, over continuation
pages that all carry the same identity, the loop returns the accumulator
with all pages' files appended to its `'files'` and every other field
untouched, having issued one request per page. -/
theorem fetchPages_obj_run :
    ∀ (pages : List Page) (fs : List (String × Json)) (s : Json)
      (accFiles : List Json),
    lookupField fs "sha" = some s →
    lookupField fs "files" = some (Json.arr accFiles) →
    (∀ p ∈ pages, objPageOk s p = true) →
    chainNexts pages = true →
    fetchPages (Json.obj fs) pages
      = (.ok (Json.obj (setField fs "files"
          (Json.arr (accFiles ++ concatFiles pages)))), pages.length)
  | [], _, _, _, _, _, _, hch => by simp [chainNexts] at hch
  | [p], fs, s, accFiles, hsha, hfiles, hpages, hch => by
    obtain ⟨hst, pfs, s', fl, hpl, hpsha, hbeq, hpfiles⟩ :=
      objPageOk_spec (hpages p (by simp))
    have hs : ¬ (400 ≤ p.status) := by omega
    have hterm : linkNext p = none := by
      simpa [chainNexts, Option.isNone_iff_eq_none] using hch
    simp [fetchPages, hs, hpl, mergePage,
      mergeObj_same_sha fs pfs s s' accFiles fl hsha hpsha hbeq hfiles hpfiles,
      hterm, concatFiles_cons, filesArrOf, hpfiles, concatFiles]
  | p :: q :: rest, fs, s, accFiles, hsha, hfiles, hpages, hch => by
    obtain ⟨hst, pfs, s', fl, hpl, hpsha, hbeq, hpfiles⟩ :=
      objPageOk_spec (hpages p (by simp))
    have hs : ¬ (400 ≤ p.status) := by omega
    simp only [chainNexts, Bool.and_eq_true] at hch
    obtain ⟨hnx, hch'⟩ := hch
    obtain ⟨u, hu⟩ := Option.isSome_iff_exists.mp hnx
    have ihr := fetchPages_obj_run (q :: rest)
      (setField fs "files" (Json.arr (accFiles ++ fl))) s (accFiles ++ fl)
      (by rw [lookupField_setField_ne _ _ _ _ (by decide)]; exact hsha)
      (lookupField_setField_self _ _ _)
      (fun r hr => hpages r (by simp at hr ⊢; tauto))
      hch'
    have hstep : mergePage (Json.obj fs) p.payload
        = .ok (Json.obj (setField fs "files" (Json.arr (accFiles ++ fl)))) := by
      rw [hpl]
      simpa [mergePage] using
        mergeObj_same_sha fs pfs s s' accFiles fl hsha hpsha hbeq hfiles hpfiles
    rw [fetchPages_cons_step (Json.obj fs) p (q :: rest) _ hs hstep u hu, ihr]
    simp [setField_setField, concatFiles_cons, hpl, filesArrOf, hpfiles,
      List.append_assoc]

/-- C1: for a pagination sequence whose first page's payload is a single
object with an embedded `files` list, every subsequent page carrying a
`sha` equal to the first page's, `__fetch` returns the first page's object
with its `files` equal to the concatenation of every page's `files` in
arrival order, and every other field (in particular every non-list field)
equal to the first page's value. -/
theorem c1_object_merge (world : World) (context : Context) (endpoint : String)
    (p₀ : Page) (rest : List Page) (fs₀ : List (String × Json)) (s : Json)
    (files₀ : List Json)
    (hw : world (buildUrl context endpoint) = p₀ :: rest)
    (hpl : p₀.payload = Json.obj fs₀)
    (hsha : lookupField fs₀ "sha" = some s)
    (hfiles : lookupField fs₀ "files" = some (Json.arr files₀))
    (hst : p₀.status < 400)
    (hrest : ∀ p ∈ rest, objPageOk s p = true)
    (hch : chainNexts (p₀ :: rest) = true) :
    ∃ fsR, (__fetch world context endpoint).1 = .ok (Json.obj fsR)
      ∧ lookupField fsR "files" = some (Json.arr (concatFiles (p₀ :: rest)))
      ∧ ∀ k, k ≠ "files" → lookupField fsR k = lookupField fs₀ k := by
  unfold __fetch
  rw [hw]
  have hs : ¬ (400 ≤ p₀.status) := by omega
  have hm : mergePage (Json.arr []) p₀.payload = .ok (Json.obj fs₀) := by
    rw [hpl]; rfl
  cases rest with
  | nil =>
    have hterm : linkNext p₀ = none := by
      simpa [chainNexts, Option.isNone_iff_eq_none] using hch
    refine ⟨fs₀, ?_, ?_, fun k _ => rfl⟩
    · simp [fetchPages, hs, hm, hterm]
    · simp [concatFiles_cons, concatFiles, filesArrOf, hpl, hfiles]
  | cons q rest' =>
    simp only [chainNexts, Bool.and_eq_true] at hch
    obtain ⟨hnx, hch'⟩ := hch
    obtain ⟨u, hu⟩ := Option.isSome_iff_exists.mp hnx
    have hrun := fetchPages_obj_run (q :: rest') fs₀ s files₀ hsha hfiles hrest hch'
    rw [fetchPages_cons_step (Json.arr []) p₀ (q :: rest') _ hs hm u hu, hrun]
    refine ⟨_, rfl, ?_, ?_⟩
    · rw [lookupField_setField_self]
      simp [concatFiles_cons, filesArrOf, hpl, hfiles]
    · intro k hk
      exact lookupField_setField_ne _ _ _ _ (Ne.symm hk)

/-- Witness for C1: a commit object split over two pages with the same
`sha`; the merged object carries the concatenated `files` and the first
page's other fields. -/
theorem c1_object_merge_witness :
    ∃ fsR,
      (__fetch
        (fun _ =>
          [⟨200, Json.obj [("sha", Json.str "abc"), ("stats", Json.num 7),
              ("files", Json.arr [Json.str "f1"])], some [("u2", "next")]⟩,
           ⟨200, Json.obj [("sha", Json.str "abc"),
              ("files", Json.arr [Json.str "f2"])], none⟩])
        ⟨"o", "r", "t"⟩ "commits/abc").1 = .ok (Json.obj fsR)
      ∧ lookupField fsR "files"
          = some (Json.arr (concatFiles
              [⟨200, Json.obj [("sha", Json.str "abc"), ("stats", Json.num 7),
                  ("files", Json.arr [Json.str "f1"])], some [("u2", "next")]⟩,
               ⟨200, Json.obj [("sha", Json.str "abc"),
                  ("files", Json.arr [Json.str "f2"])], none⟩]))
      ∧ ∀ k, k ≠ "files" →
          lookupField fsR k
            = lookupField [("sha", Json.str "abc"), ("stats", Json.num 7),
                ("files", Json.arr [Json.str "f1"])] k :=
  c1_object_merge _ _ _
    ⟨200, Json.obj [("sha", Json.str "abc"), ("stats", Json.num 7),
        ("files", Json.arr [Json.str "f1"])], some [("u2", "next")]⟩
    [⟨200, Json.obj [("sha", Json.str "abc"),
        ("files", Json.arr [Json.str "f2"])], none⟩]
    [("sha", Json.str "abc"), ("stats", Json.num 7),
        ("files", Json.arr [Json.str "f1"])]
    (Json.str "abc") [Json.str "f1"]
    rfl rfl rfl rfl (by decide)
    (by intro p hp; simp at hp; subst hp; rfl)
    rfl

/-- Mismatch run of the pagination loop: an object accumulator carrying
identity `s`, any number of matching continuation pages, then a page whose
`sha` compares unequal: the loop raises `identityMismatch`, whatever
follows that page. -/
theorem fetchPages_obj_mismatch :
    ∀ (good : List Page) (bad : Page) (rest : List Page)
      (fs : List (String × Json)) (s : Json) (accFiles : List Json),
    lookupField fs "sha" = some s →
    lookupField fs "files" = some (Json.arr accFiles) →
    (∀ p ∈ good, objPageOk s p = true ∧ (linkNext p).isSome) →
    bad.status < 400 →
    (∃ bfs s', bad.payload = Json.obj bfs ∧ lookupField bfs "sha" = some s'
      ∧ jsonBeq s s' = false) →
    (fetchPages (Json.obj fs) (good ++ bad :: rest)).1 = .error .identityMismatch
  | [], bad, rest, fs, s, accFiles, hsha, _, _, hbst, hbad => by
    obtain ⟨bfs, s', hbpl, hbsha, hbeq⟩ := hbad
    have hs : ¬ (400 ≤ bad.status) := by omega
    simp [fetchPages, hs, hbpl, mergePage,
      mergeObj_sha_mismatch fs bfs s s' hsha hbsha hbeq]
  | p :: good', bad, rest, fs, s, accFiles, hsha, hfiles, hgood, hbst, hbad => by
    obtain ⟨hok, hnx⟩ := hgood p (by simp)
    obtain ⟨hst, pfs, s', fl, hpl, hpsha, hbeq, hpfiles⟩ := objPageOk_spec hok
    have hs : ¬ (400 ≤ p.status) := by omega
    obtain ⟨u, hu⟩ := Option.isSome_iff_exists.mp hnx
    have hstep : mergePage (Json.obj fs) p.payload
        = .ok (Json.obj (setField fs "files" (Json.arr (accFiles ++ fl)))) := by
      rw [hpl]
      simpa [mergePage] using
        mergeObj_same_sha fs pfs s s' accFiles fl hsha hpsha hbeq hfiles hpfiles
    have ihr := fetchPages_obj_mismatch good' bad rest
      (setField fs "files" (Json.arr (accFiles ++ fl))) s (accFiles ++ fl)
      (by rw [lookupField_setField_ne _ _ _ _ (by decide)]; exact hsha)
      (lookupField_setField_self _ _ _)
      (fun r hr => hgood r (by simp [hr]))
      hbst hbad
    rw [List.cons_append,
      fetchPages_cons_step (Json.obj fs) p (good' ++ bad :: rest) _ hs hstep u hu]
    exact ihr

/-- C2: in object-merge mode, if a continuation page's `sha` differs from
the first page's, `__fetch` raises the pagination-identity-mismatch error;
the merge step applied to the mismatching page yields only that error for
any accumulated object still carrying the first page's identity, so no
part of the mismatching page is merged into the accumulated result. -/
theorem c2_identity_mismatch (world : World) (context : Context)
    (endpoint : String) (p₀ : Page) (good : List Page) (bad : Page)
    (rest : List Page) (fs₀ : List (String × Json)) (s : Json)
    (files₀ : List Json)
    (hw : world (buildUrl context endpoint) = p₀ :: (good ++ bad :: rest))
    (hpl : p₀.payload = Json.obj fs₀)
    (hsha : lookupField fs₀ "sha" = some s)
    (hfiles : lookupField fs₀ "files" = some (Json.arr files₀))
    (hst : p₀.status < 400)
    (hnx : (linkNext p₀).isSome)
    (hgood : ∀ p ∈ good, objPageOk s p = true ∧ (linkNext p).isSome)
    (hbst : bad.status < 400)
    (hbad : ∃ bfs s', bad.payload = Json.obj bfs
      ∧ lookupField bfs "sha" = some s' ∧ jsonBeq s s' = false) :
    (__fetch world context endpoint).1 = .error .identityMismatch
      ∧ ∀ afs, lookupField afs "sha" = some s →
          mergeObj afs bad.payload = .error .identityMismatch := by
  obtain ⟨bfs, s', hbpl, hbsha, hbeq⟩ := hbad
  constructor
  · unfold __fetch
    rw [hw]
    have hs : ¬ (400 ≤ p₀.status) := by omega
    have hm : mergePage (Json.arr []) p₀.payload = .ok (Json.obj fs₀) := by
      rw [hpl]; rfl
    obtain ⟨u, hu⟩ := Option.isSome_iff_exists.mp hnx
    rw [fetchPages_cons_step (Json.arr []) p₀ (good ++ bad :: rest) _ hs hm u hu]
    exact fetchPages_obj_mismatch good bad rest fs₀ s files₀ hsha hfiles hgood
      hbst ⟨bfs, s', hbpl, hbsha, hbeq⟩
  · intro afs hasha
    rw [hbpl]
    exact mergeObj_sha_mismatch afs bfs s s' hasha hbsha hbeq

/-- Witness for C2: a second page whose `sha` differs raises the mismatch
error. -/
theorem c2_identity_mismatch_witness :
    (__fetch
      (fun _ =>
        [⟨200, Json.obj [("sha", Json.str "abc"),
            ("files", Json.arr [Json.str "f1"])], some [("u2", "next")]⟩,
         ⟨200, Json.obj [("sha", Json.str "zzz"),
            ("files", Json.arr [Json.str "f2"])], none⟩])
      ⟨"o", "r", "t"⟩ "commits/abc").1 = .error .identityMismatch
    ∧ ∀ afs, lookupField afs "sha" = some (Json.str "abc") →
        mergeObj afs (Json.obj [("sha", Json.str "zzz"),
          ("files", Json.arr [Json.str "f2"])]) = .error .identityMismatch :=
  c2_identity_mismatch _ _ _
    ⟨200, Json.obj [("sha", Json.str "abc"),
        ("files", Json.arr [Json.str "f1"])], some [("u2", "next")]⟩
    []
    ⟨200, Json.obj [("sha", Json.str "zzz"),
        ("files", Json.arr [Json.str "f2"])], none⟩
    []
    [("sha", Json.str "abc"), ("files", Json.arr [Json.str "f1"])]
    (Json.str "abc") [Json.str "f1"]
    rfl rfl rfl rfl (by decide) (by decide)
    (by intro p hp; simp at hp)
    (by decide)
    ⟨[("sha", Json.str "zzz"), ("files", Json.arr [Json.str "f2"])],
      Json.str "zzz", rfl, rfl, rfl⟩

/-- C7: if any fetch step of a single-PR assembly raises an error before
assembly completes, `__fetch_pr` performs no cache write at all: the cache
file keeps exactly its previous contents. -/
theorem c7_no_write_on_error (world : World) (tok : String)
    (cache : Option Json) (owner repo : String) (n : Int) (e : Err)
    (h : (__fetch_pr world tok cache owner repo n).result = .error e) :
    (__fetch_pr world tok cache owner repo n).written = none := by
  unfold __fetch_pr at h ⊢
  generalize assemblePr world tok owner repo n = rc at h ⊢
  obtain ⟨r, c⟩ := rc
  cases r with
  | error e' => rfl
  | ok rec =>
    cases cache with
    | none => simp at h
    | some j => cases j <;> simp_all

/-- Witness for C7: a server answering every request with status 500 makes
the assembly raise `httpError 500`, and no write occurs. -/
theorem c7_no_write_on_error_witness :
    (__fetch_pr (fun _ => [⟨500, Json.null, none⟩]) "t" (some (Json.arr []))
      "o" "r" 1).written = none :=
  c7_no_write_on_error (fun _ => [⟨500, Json.null, none⟩]) "t"
    (some (Json.arr [])) "o" "r" 1 (.httpError 500) rfl

/-- C9: the append step of `__fetch_pr` does not deduplicate by PR number:
two successful runs for the same number against the evolving cache append
one (identical) record each, leaving two entries for that number. -/
theorem c9_append_no_dedup (world : World) (tok owner repo : String)
    (n : Int) (oldL l1 l2 : List Json)
    (h1 : (__fetch_pr world tok (some (Json.arr oldL)) owner repo n).written
      = some l1)
    (h2 : (__fetch_pr world tok (some (Json.arr l1)) owner repo n).written
      = some l2) :
    ∃ rec, l1 = oldL ++ [rec] ∧ l2 = oldL ++ [rec, rec] := by
  unfold __fetch_pr at h1 h2
  generalize assemblePr world tok owner repo n = rc at h1 h2
  obtain ⟨r, c⟩ := rc
  cases r with
  | error e => simp at h1
  | ok rec =>
    simp only [Option.some.injEq] at h1 h2
    refine ⟨rec, h1.symm, ?_⟩
    rw [← h2, ← h1]
    simp

/-- The server used by the C9 witness: one PR with no commits. -/
def c9world : World := fun u =>
  if u = "https://api.github.com/repos/o/r/c" then [⟨200, Json.arr [], none⟩]
  else [⟨200, Json.obj [("number", Json.num 1),
    ("commits_url", Json.str "https://api.github.com/repos/o/r/c"),
    ("title", Json.null), ("body", Json.null)], none⟩]

/-- The record the C9 witness server yields. -/
def c9rec : Json := Json.obj [("PR_NUMBER", Json.num 1),
  ("PR_TITLE", Json.null), ("PR_BODY", Json.null), ("COMMITS", Json.arr [])]

/-- Witness for C9: running `__fetch_pr` twice for PR 1 over an initially
empty cache leaves two entries with that number. -/
theorem c9_append_no_dedup_witness :
    ∃ rec, [c9rec] = [] ++ [rec] ∧ [c9rec, c9rec] = [] ++ [rec, rec] :=
  c9_append_no_dedup c9world "t" "o" "r" 1 [] [c9rec] [c9rec, c9rec] rfl rfl

/-- Well-formedness of one cached record for the `fetch_pr` comprehension:
a dict carrying `'PR_NUMBER'`. -/
def prWf : Json → Bool
  | Json.obj fs => (lookupField fs "PR_NUMBER").isSome
  | _ => false

/-- Whether a cached record's `'PR_NUMBER'` equals the requested number. -/
def matchesN (pr : Json) (n : Int) : Bool :=
  match pr with
  | Json.obj fs =>
    match lookupField fs "PR_NUMBER" with
    | some v => jsonEqInt v n
    | none => false
  | _ => false

theorem filterPrsList_wf (l : List Json) (n : Int)
    (hwf : ∀ pr ∈ l, prWf pr = true) :
    filterPrsList l n = .ok (l.filter (fun pr => matchesN pr n)) := by
  induction l with
  | nil => rfl
  | cons pr rest ih =>
    have hpr := hwf pr (by simp)
    cases pr with
    | obj fs =>
      obtain ⟨v, hv⟩ := Option.isSome_iff_exists.mp (by simpa [prWf] using hpr)
      have ihr := ih (fun q hq => hwf q (by simp [hq]))
      by_cases hm : jsonEqInt v n = true <;>
        simp [filterPrsList, hv, ihr, List.filter, matchesN, hm]
    | null => simp [prWf] at hpr
    | bool b => simp [prWf] at hpr
    | num m => simp [prWf] at hpr
    | str s => simp [prWf] at hpr
    | arr a => simp [prWf] at hpr

theorem filter_head_of_find? :
    ∀ (l : List Json) (p : Json → Bool) (rec : Json),
    l.find? p = some rec → ∃ t, l.filter p = rec :: t
  | [], _, _, h => by simp at h
  | a :: l, p, rec, h => by
    by_cases hp : p a = true
    · rw [List.find?_cons_of_pos _ hp] at h
      obtain rfl : a = rec := by simpa using h
      exact ⟨l.filter p, by simp [List.filter_cons_of_pos hp]⟩
    · rw [List.find?_cons_of_neg _ (by simpa using hp)] at h
      obtain ⟨t, ht⟩ := filter_head_of_find? l p rec h
      exact ⟨t, by simp [List.filter_cons_of_neg (by simpa using hp), ht]⟩

/-- C5: when the cache file exists and holds a record with the requested
PR number, `fetch_pr` returns the first such cached record unchanged,
issues zero GET requests, and writes nothing. -/
theorem c5_cache_hit (world : World) (tok : String) (prs : List Json)
    (owner repo : String) (n : Int) (rec : Json)
    (hwf : ∀ pr ∈ prs, prWf pr = true)
    (hfind : prs.find? (fun pr => matchesN pr n) = some rec) :
    fetch_pr world tok (some (Json.arr prs)) owner repo n = ⟨.ok rec, 0, none⟩ := by
  cases prs with
  | nil => simp at hfind
  | cons a l =>
    obtain ⟨t, hfil⟩ := filter_head_of_find? (a :: l) _ rec hfind
    have hflt := filterPrsList_wf (a :: l) n hwf
    rw [hfil] at hflt
    simp [fetch_pr, pyFalsy, filterPrs, hflt]

/-- Witness for C5: a cache holding PR 7 answers a request for PR 7 with
no network activity. -/
theorem c5_cache_hit_witness :
    fetch_pr (fun _ => []) "t"
      (some (Json.arr [Json.obj [("PR_NUMBER", Json.num 7)]])) "o" "r" 7
      = ⟨.ok (Json.obj [("PR_NUMBER", Json.num 7)]), 0, none⟩ :=
  c5_cache_hit (fun _ => []) "t" [Json.obj [("PR_NUMBER", Json.num 7)]]
    "o" "r" 7 (Json.obj [("PR_NUMBER", Json.num 7)]) (by decide) rfl

/-- C8: the rate governor blocks exactly when fewer than 10 calls remain
and the reset epoch is in the future, and then it sleeps until one second
past the reset epoch; with 9 remaining and a reset 5 seconds away it
sleeps 6 seconds; with 10 or more remaining it never blocks; it never
blocks on a reset epoch already passed. -/
theorem c8_rate_governor (r reset now : Int) :
    ((∃ t, check_rate_limit (some r) (some reset) now = .ok (some t))
      ↔ (r < 10 ∧ reset > now))
    ∧ (r < 10 → reset > now →
        check_rate_limit (some r) (some reset) now
          = .ok (some (reset - now + 1)))
    ∧ check_rate_limit (some 9) (some (now + 5)) now = .ok (some 6)
    ∧ (10 ≤ r → check_rate_limit (some r) (some reset) now = .ok none)
    ∧ (reset ≤ now → check_rate_limit (some r) (some reset) now = .ok none)
    ∧ check_rate_limit none (some reset) now = .ok none := by
  have hev : ∀ (a b c : Int), check_rate_limit (some a) (some b) c =
      if a < 10 then
        (if b > c then Except.ok (some (b - c + 1)) else Except.ok none)
      else Except.ok none := fun a b c => rfl
  refine ⟨⟨?_, ?_⟩, ?_, ?_, ?_, ?_, rfl⟩
  · rintro ⟨t, ht⟩
    rw [hev] at ht
    split_ifs at ht with h1 h2
    · exact ⟨h1, h2⟩
    · simp at ht
    · simp at ht
  · rintro ⟨h1, h2⟩
    exact ⟨reset - now + 1, by rw [hev, if_pos h1, if_pos h2]⟩
  · intro h1 h2
    rw [hev, if_pos h1, if_pos h2]
  · rw [hev, if_pos (by norm_num : (9 : Int) < 10),
      if_pos (by omega : now + 5 > now)]
    simp only [Except.ok.injEq, Option.some.injEq]
    omega
  · intro h1
    rw [hev, if_neg (by omega)]
  · intro h2
    rw [hev]
    split_ifs with h1 h3
    · exact absurd h3 (by omega)
    · rfl
    · rfl

/-- Witness for C8: with 9 remaining and reset 5 seconds ahead the
governor sleeps 6 seconds; with 50 remaining it does not block; with the
reset epoch already past it does not block. -/
theorem c8_rate_governor_witness :
    check_rate_limit (some 9) (some 5) 0 = .ok (some 6)
    ∧ check_rate_limit (some 50) (some 100) 0 = .ok none
    ∧ check_rate_limit (some 9) (some 0) 5 = .ok none :=
  ⟨by simpa using (c8_rate_governor 9 5 0).2.2.1,
   (c8_rate_governor 50 100 0).2.2.2.1 (by norm_num),
   (c8_rate_governor 9 0 5).2.2.2.2.1 (by norm_num)⟩

theorem string_data_append (a b : String) : (a ++ b).data = a.data ++ b.data := by
  cases a; cases b; rfl

theorem pyStartswith_pulls_append (s : String) :
    pyStartswith ("pulls/" ++ s) "pulls" = true := by
  have hpre : "pulls".data <+: ("pulls/" ++ s).data := by
    rw [string_data_append]
    exact List.IsPrefix.trans (by decide) (List.prefix_append _ _)
  simp [pyStartswith, List.isPrefixOf_iff_prefix, hpre]

theorem pyStartswith_pulls_not_base (s : String) :
    pyStartswith ("pulls/" ++ s) "https://api.github.com/repos/" = false := by
  rw [pyStartswith, ← Bool.not_eq_true, List.isPrefixOf_iff_prefix]
  intro hpre
  obtain ⟨t, ht⟩ := hpre
  rw [string_data_append] at ht
  have hp : "pulls/".data = 'p' :: "ulls/".data := rfl
  have hb : "https://api.github.com/repos/".data
      = 'h' :: "ttps://api.github.com/repos/".data := rfl
  rw [hp, hb] at ht
  simp at ht

/-- C10: every relative endpoint starting with `pulls` — in particular the
single-PR detail endpoint `pulls/{number}` used by the single-PR assembly
path — gets `?state=all` appended to the constructed request URL, while an
endpoint that is an absolute URL starting with the API base is requested
unchanged. -/
theorem c10_state_all_on_pulls (context : Context) (e a : String) (n : Int)
    (h1 : pyStartswith e "pulls" = true)
    (h2 : pyStartswith e "https://api.github.com/repos/" = false)
    (h3 : pyStartswith a "https://api.github.com/repos/" = true) :
    buildUrl context e
      = "https://api.github.com/repos/" ++ context.repo_owner ++ "/"
        ++ context.repo_name ++ "/" ++ e ++ "?state=all"
    ∧ buildUrl context a = a
    ∧ buildUrl context ("pulls/" ++ toString n)
      = "https://api.github.com/repos/" ++ context.repo_owner ++ "/"
        ++ context.repo_name ++ "/" ++ ("pulls/" ++ toString n) ++ "?state=all" := by
  refine ⟨?_, ?_, ?_⟩
  · rw [buildUrl]
    rw [if_neg (by simp [h2]), if_pos h1]
  · rw [buildUrl, if_pos h3]
  · rw [buildUrl]
    rw [if_neg (by simp [pyStartswith_pulls_not_base]),
      if_pos (pyStartswith_pulls_append _)]

/-- Witness for C10: `pulls/42` gets `?state=all`; an absolute commit URL
is requested unchanged. -/
theorem c10_state_all_on_pulls_witness :
    buildUrl ⟨"o", "r", "t"⟩ "pulls/42"
      = "https://api.github.com/repos/" ++ "o" ++ "/" ++ "r" ++ "/"
        ++ "pulls/42" ++ "?state=all"
    ∧ buildUrl ⟨"o", "r", "t"⟩ "https://api.github.com/repos/o/r/commits/abc"
      = "https://api.github.com/repos/o/r/commits/abc"
    ∧ buildUrl ⟨"o", "r", "t"⟩ ("pulls/" ++ toString (42 : Int))
      = "https://api.github.com/repos/" ++ "o" ++ "/" ++ "r" ++ "/"
        ++ ("pulls/" ++ toString (42 : Int)) ++ "?state=all" :=
  c10_state_all_on_pulls ⟨"o", "r", "t"⟩ "pulls/42"
    "https://api.github.com/repos/o/r/commits/abc" 42
    (by decide) (by decide) (by decide)

/-- Cached records present before the C6 run: PR 1 and PR 2. -/
def c6pr1 : Json := Json.obj [("PR_NUMBER", Json.num 1)]

/-- Second cached record of the C6 run. -/
def c6pr2 : Json := Json.obj [("PR_NUMBER", Json.num 2)]

/-- The commit-list URL the PR 43 detail points at. -/
def c6commitsUrl : String := "https://api.github.com/repos/o/r/pulls/43/commits"

/-- The commit-detail URL the commit listing points at. -/
def c6commitUrl : String := "https://api.github.com/repos/o/r/commits/abc"

/-- The PR 43 detail payload. -/
def c6detail : Json := Json.obj [("number", Json.num 43),
  ("commits_url", Json.str c6commitsUrl), ("title", Json.str "T"),
  ("body", Json.null)]

/-- The PR 43 commit listing payload: one commit. -/
def c6commit : Json := Json.obj [("commit",
  Json.obj [("message", Json.str "m1")]), ("url", Json.str c6commitUrl)]

/-- The commit detail payload: one changed file with a patch, one
binary file without one. -/
def c6commitDetail : Json := Json.obj [("sha", Json.str "abc"),
  ("files", Json.arr
    [Json.obj [("filename", Json.str "a.txt"), ("changes", Json.num 1),
      ("patch", Json.str "p")],
     Json.obj [("filename", Json.str "b.bin"), ("changes", Json.num 0)]])]

/-- The record PR 43 assembles to. -/
def c6rec : Json := Json.obj [("PR_NUMBER", Json.num 43),
  ("PR_TITLE", Json.str "T"), ("PR_BODY", Json.null),
  ("COMMITS", Json.arr [Json.obj [("COMMIT_MESSAGE", Json.str "m1"),
    ("COMMIT_FILES", Json.arr [Json.obj [("FILE_NAME", Json.str "a.txt"),
      ("FILE_PATCH", Json.str "p")]])]])]

set_option maxRecDepth 4000 in
/-- C6: against a cache holding PRs 1 and 2 but not 43, `fetch_pr` for 43
consults the server only at PR 43's three resources (its detail, its
commit list, and its one commit's files — the outcome is the same for
every server agreeing on those three URLs), issues exactly 3 GET requests
(no full-repository re-fetch), returns the assembled record, and writes
back the cache with PRs 1 and 2 in place followed by the new record; the
serialized forms show the bytes of PRs 1 and 2 unchanged in the rewritten
file. -/
theorem c6_incremental_fetch (world : World)
    (hw1 : world (buildUrl ⟨"o", "r", "t"⟩ ("pulls/" ++ toString (43 : Int)))
      = [⟨200, c6detail, none⟩])
    (hw2 : world c6commitsUrl = [⟨200, Json.arr [c6commit], none⟩])
    (hw3 : world c6commitUrl = [⟨200, c6commitDetail, none⟩]) :
    fetch_pr world "t" (some (Json.arr [c6pr1, c6pr2])) "o" "r" 43
      = ⟨.ok c6rec, 3, some [c6pr1, c6pr2, c6rec]⟩
    ∧ buildUrl ⟨"o", "r", "t"⟩ ("pulls/" ++ toString (43 : Int))
      = "https://api.github.com/repos/o/r/pulls/43?state=all"
    ∧ dumps (Json.arr [c6pr1, c6pr2, c6rec])
      = "[" ++ dumps c6pr1 ++ ", " ++ dumps c6pr2 ++ ", " ++ dumps c6rec ++ "]"
    ∧ dumps (Json.arr [c6pr1, c6pr2])
      = "[" ++ dumps c6pr1 ++ ", " ++ dumps c6pr2 ++ "]" := by
  have hfe1 : __fetch world ⟨"o", "r", "t"⟩ ("pulls/" ++ toString (43 : Int))
      = (.ok c6detail, 1) := by
    unfold __fetch
    rw [hw1]
    rfl
  have he2 : buildUrl ⟨"o", "r", "t"⟩ c6commitsUrl = c6commitsUrl := rfl
  have hfe2 : __fetch world ⟨"o", "r", "t"⟩ c6commitsUrl
      = (.ok (Json.arr [c6commit]), 1) := by
    unfold __fetch
    rw [he2, hw2]
    rfl
  have he3 : buildUrl ⟨"o", "r", "t"⟩ c6commitUrl = c6commitUrl := rfl
  have hfe3 : __fetch world ⟨"o", "r", "t"⟩ c6commitUrl
      = (.ok c6commitDetail, 1) := by
    unfold __fetch
    rw [he3, hw3]
    rfl
  have hasm : assemblePr world "t" "o" "r" 43 = (.ok c6rec, 3) := by
    simp [assemblePr, hfe1, c6detail, lookupField, processCommits,
      processCommit, pyIter, filterFiles, c6commit, c6commitDetail, c6rec,
      hfe2, hfe3, jsonEqInt, Except.map]
  refine ⟨?_, by decide, by decide, by decide⟩
  have hcold : fetch_pr world "t" (some (Json.arr [c6pr1, c6pr2])) "o" "r" 43
      = __fetch_pr world "t" (some (Json.arr [c6pr1, c6pr2])) "o" "r" 43 := rfl
  rw [hcold]
  unfold __fetch_pr
  rw [hasm]
  rfl

/-- The concrete server of the C6 witness. -/
def c6world : World := fun u =>
  if u = c6commitsUrl then [⟨200, Json.arr [c6commit], none⟩]
  else if u = c6commitUrl then [⟨200, c6commitDetail, none⟩]
  else [⟨200, c6detail, none⟩]

set_option maxRecDepth 4000 in
/-- Witness for C6: the concrete server yields the assembled PR 43 record,
3 requests, and the cache `[c6pr1, c6pr2, c6rec]`. -/
theorem c6_incremental_fetch_witness :
    fetch_pr c6world "t" (some (Json.arr [c6pr1, c6pr2])) "o" "r" 43
      = ⟨.ok c6rec, 3, some [c6pr1, c6pr2, c6rec]⟩
    ∧ buildUrl ⟨"o", "r", "t"⟩ ("pulls/" ++ toString (43 : Int))
      = "https://api.github.com/repos/o/r/pulls/43?state=all"
    ∧ dumps (Json.arr [c6pr1, c6pr2, c6rec])
      = "[" ++ dumps c6pr1 ++ ", " ++ dumps c6pr2 ++ ", " ++ dumps c6rec ++ "]"
    ∧ dumps (Json.arr [c6pr1, c6pr2])
      = "[" ++ dumps c6pr1 ++ ", " ++ dumps c6pr2 ++ "]" :=
  c6_incremental_fetch c6world rfl rfl rfl
